import Mathlib

/-!
# Verification of the Hong Kong Monthly Temperature Matrix (`main.js`)

Shallow embedding of the data pipeline of `main.js`: row parsing, the
last-N-years filter, the (year, month) aggregation, the sequential color
scale, the band and linear scales feeding the sparklines, and the
click-to-toggle display state.

Modelling conventions:

* A JavaScript number that can be non-finite is modelled as `Option ℚ`,
  where `none` stands for a non-finite value (`NaN`, `±Infinity`) or for
  `undefined`; finite values are exact rationals.  All the d3 helpers the
  program uses (`d3.mean`, `d3.min`, `d3.max`) skip `null`/`undefined`/`NaN`
  inputs, which the embedding reproduces.
* A parsed calendar date is modelled by the only two projections the
  program ever reads from it: `getFullYear()` (an integer) and
  `getMonth()` (0–11, hence `Fin 12`).
* A color produced by `d3.interpolateRdYlBu` is modelled by its position
  `t ∈ [0, 1]` along the fixed RdYlBu ramp, `t = 0` being the red (hot)
  endpoint and `t = 1` the blue (cold) endpoint; d3's basis-spline
  interpolator clamps its argument to `[0, 1]`, which the model keeps.
-/

/-- Result of parsing one CSV row (`parseRow` in `main.js`): the date is
kept as its `(getFullYear, getMonth)` projections, and the two
temperatures are JS numbers (`none` = `NaN`). -/
structure Daily where
  year : ℤ
  month : Fin 12
  max : Option ℚ
  min : Option ℚ
deriving DecidableEq, Repr

/-- One raw CSV row as handed to `parseRow` by `d3.csv`: a date text
(modelled by the calendar date it denotes, i.e. its year and month
projections) and the two numeric-as-text temperature fields. -/
structure RawRow where
  dateYear : ℤ
  dateMonth : Fin 12
  max_temperature : String
  min_temperature : String
deriving DecidableEq, Repr

/-- Aggregated summary of one (year, month) pair (the objects pushed by
`aggregateByYearMonth` in `main.js`). -/
structure Cell where
  year : ℤ
  month : Fin 12
  avgMax : Option ℚ
  avgMin : Option ℚ
  days : List Daily
deriving DecidableEq, Repr

/-- Whitespace test for JS string trimming. -/
def isWs (c : Char) : Bool :=
  c = ' ' || c = '\t' || c = '\n' || c = '\r'

/-- Trim leading and trailing whitespace from a character list. -/
def trimWs (cs : List Char) : List Char :=
  ((cs.dropWhile isWs).reverse.dropWhile isWs).reverse

/-- All characters are decimal digits. -/
def digitsOk (cs : List Char) : Bool :=
  cs.all (·.isDigit)

/-- Value of a decimal digit string. -/
def digitsVal (cs : List Char) : ℕ :=
  cs.foldl (fun a c => a * 10 + (c.toNat - 48)) 0

/-- Unsigned decimal numeral: digits with an optional single decimal
point (`"30"`, `"1."`, `".5"`); anything else is `NaN` (`none`). -/
def parseUnsigned (cs : List Char) : Option ℚ :=
  let ip := cs.takeWhile (fun c => decide (c ≠ '.'))
  match cs.dropWhile (fun c => decide (c ≠ '.')) with
  | [] =>
      if digitsOk ip && !ip.isEmpty then some ((digitsVal ip : ℚ)) else none
  | _ :: frac =>
      if digitsOk ip && digitsOk frac && !(ip.isEmpty && frac.isEmpty) then
        some ((digitsVal ip : ℚ) + (digitsVal frac : ℚ) / (10 : ℚ) ^ frac.length)
      else none

/-- JS unary-plus coercion of a numeric text field (`+d.max_temperature`):
trimmed empty text is `0`, an optionally signed decimal numeral is its
value, and malformed text is `NaN` (`none`).  The exotic well-formed JS
forms (exponent, hex/octal/binary, `Infinity`) are outside the modelled
subset; no claim depends on them. -/
def parseTemp (s : String) : Option ℚ :=
  match trimWs s.toList with
  | [] => some 0
  | '+' :: cs => parseUnsigned cs
  | '-' :: cs => (parseUnsigned cs).map (fun q => -q)
  | cs => parseUnsigned cs

/-- `parseRow` from `main.js`: the date text becomes the calendar date it
denotes (kept as year and month), both temperature texts are coerced with
unary plus. -/
def parseRow (d : RawRow) : Daily :=
  { year := d.dateYear
    month := d.dateMonth
    max := parseTemp d.max_temperature
    min := parseTemp d.min_temperature }

/-- `d3.max` over a list of plain integers (the years): a fold that
replaces the accumulator whenever it is exceeded; `undefined` (`none`)
on an empty list. -/
def d3maxI (xs : List ℤ) : Option ℤ :=
  xs.foldl
    (fun acc v =>
      match acc with
      | none => some v
      | some m => some (max m v))
    none

/-- One step of `d3.min` over JS numbers: `null`/`undefined`/`NaN`
(`none`) values are skipped, otherwise the running minimum is updated. -/
def d3minStep (acc : Option ℚ) (v : Option ℚ) : Option ℚ :=
  match v with
  | none => acc
  | some q =>
      match acc with
      | none => some q
      | some m => some (min m q)

/-- `d3.min` over JS numbers. -/
def d3minO (xs : List (Option ℚ)) : Option ℚ :=
  xs.foldl d3minStep none

/-- One step of `d3.max` over JS numbers, skipping non-finite values. -/
def d3maxStep (acc : Option ℚ) (v : Option ℚ) : Option ℚ :=
  match v with
  | none => acc
  | some q =>
      match acc with
      | none => some q
      | some m => some (max m q)

/-- `d3.max` over JS numbers. -/
def d3maxO (xs : List (Option ℚ)) : Option ℚ :=
  xs.foldl d3maxStep none

/-- `d3.mean`: ignores `null`/`undefined`/`NaN` values, returns
`undefined` (`none`) when no valid value remains, otherwise the sum of
the valid values divided by their count. -/
def d3mean (xs : List (Option ℚ)) : Option ℚ :=
  if (xs.filterMap id).length = 0 then none
  else some ((xs.filterMap id).sum / ((xs.filterMap id).length : ℚ))

/-- `filterLastYears` from `main.js`: `maxYear` is `d3.max` of the years;
the filter keeps rows with `year > maxYear - n`.  On empty input
`maxYear` is `undefined`, `undefined - n` is `NaN`, and the comparison is
false for every row, so nothing is kept. -/
def filterLastYears (data : List Daily) (n : ℤ) : List Daily :=
  match d3maxI (data.map (·.year)) with
  | none => []
  | some maxYear => data.filter (fun d => decide (d.year > maxYear - n))

/-- The distinct elements of a list in order of first appearance — the
key iteration order of the `Map`s built by `d3.group` (insertion order).
Implemented by deduplicating the reversed list (Mathlib's `dedup` keeps
the last occurrence) and reversing back. -/
def dedupKeepFirst [DecidableEq α] (l : List α) : List α :=
  l.reverse.dedup.reverse

/-- `aggregateByYearMonth` from `main.js`: `d3.group(data, year, month)`
builds a nested `Map` keyed by year then month, in order of first
appearance, whose leaf lists are the matching rows in input order; the
double `for…of` loop then pushes one cell per (year, month) key with
`d3.mean` of the `max` and `min` fields and the day list itself. -/
def aggregateByYearMonth (data : List Daily) : List Cell :=
  (dedupKeepFirst (data.map (·.year))).flatMap (fun y =>
    let yearRows := data.filter (fun d => decide (d.year = y))
    (dedupKeepFirst (yearRows.map (·.month))).map (fun m =>
      let days := yearRows.filter (fun d => decide (d.month = m))
      { year := y
        month := m
        avgMax := d3mean (days.map (·.max))
        avgMin := d3mean (days.map (·.min))
        days := days }))

/-- `TEMP_MIN` from `main.js`. -/
def TEMP_MIN : ℚ := 0

/-- `TEMP_MAX` from `main.js`. -/
def TEMP_MAX : ℚ := 40

/-- `cellWidth` from `main.js` (pixels). -/
def cellWidth : ℚ := 80

/-- `cellHeight` from `main.js` (pixels). -/
def cellHeight : ℚ := 50

/-- The padding value `0.05` passed to `.padding()` on both band scales
(setting inner and outer padding alike). -/
def bandPadding : ℚ := 5 / 100

/-- `d3.interpolateRdYlBu`, modelled by the position along the ramp: the
basis-spline interpolator behind the scheme clamps its argument to
`[0, 1]` (`t ≤ 0` uses the first spline segment at 0, `t ≥ 1` the last at
1), so the resulting color is the red endpoint at `0` and the blue
endpoint at `1`. -/
def interpolateRdYlBuPos (t : ℚ) : ℚ :=
  max 0 (min 1 t)

/-- The interpolator argument computed by
`d3.scaleSequential(...).domain([TEMP_MAX, TEMP_MIN])` at a finite input:
the sequential scale uses `t = (x - d0) * k10` with
`k10 = 1 / (d1 - d0)` (the domain `[40, 0]` is not degenerate). -/
def sequentialT (x : ℚ) : ℚ :=
  (x - TEMP_MAX) * (1 / (TEMP_MIN - TEMP_MAX))

/-- `buildColorScale` from `main.js` evaluated at a JS number: a
sequential scale over `d3.interpolateRdYlBu` with domain
`[TEMP_MAX, TEMP_MIN]`; a `NaN`/`undefined` input yields the scale's
`unknown` value (`undefined`, modelled `none`), otherwise the color at
ramp position `interpolateRdYlBuPos (sequentialT x)`. -/
def buildColorScale (x : Option ℚ) : Option ℚ :=
  x.map (fun t => interpolateRdYlBuPos (sequentialT t))

/-- `d3.scaleLinear().domain([d0, d1]).range([r0, r1])` applied to `x`
(no clamp, numeric interpolate): a `NaN` input returns `unknown`
(`undefined`); a `NaN` domain endpoint makes every output `NaN`; a
degenerate domain (`d1 - d0 = 0`) uses the constant-`0.5` normalize of
d3, mapping every finite input to the midpoint of the range; otherwise
`r0 + (x - d0) / (d1 - d0) * (r1 - r0)`. -/
def scaleLinearJS (d0 d1 : Option ℚ) (r0 r1 : ℚ) (x : Option ℚ) : Option ℚ :=
  x.bind fun t =>
    d0.bind fun a =>
      d1.bind fun b =>
        if b - a = 0 then some (r0 + (1 / 2) * (r1 - r0))
        else some (r0 + (t - a) / (b - a) * (r1 - r0))

/-- The `step` of `d3.scaleBand()` with `n` domain values, range
`[0, L]` and paddings `padI`/`padO`:
`L / max(1, n - paddingInner + 2 * paddingOuter)`. -/
def bandStep (n : ℕ) (L padI padO : ℚ) : ℚ :=
  L / max 1 ((n : ℚ) - padI + 2 * padO)

/-- The first band position of `d3.scaleBand()` (range `[0, L]`,
`align = 0.5`, `round = false`):
`start = 0 + (L - step * (n - paddingInner)) * align`. -/
def bandStart (n : ℕ) (L padI padO : ℚ) : ℚ :=
  (L - bandStep n L padI padO * ((n : ℚ) - padI)) * (1 / 2)

/-- `bandwidth()` of `d3.scaleBand()`: `step * (1 - paddingInner)`. -/
def bandWidth (n : ℕ) (L padI padO : ℚ) : ℚ :=
  bandStep n L padI padO * (1 - padI)

/-- A `d3.scaleBand()` over domain list `dom` with range `[0, L]`:
position of the `i`-th domain value is `start + step * i`; a value not in
the domain maps to `undefined` (band scales set `unknown` to
`undefined`). -/
def bandPos [DecidableEq α] (dom : List α) (L padI padO : ℚ) (v : α) : Option ℚ :=
  (dom.findIdx? (fun x => decide (x = v))).map
    (fun i => bandStart dom.length L padI padO + bandStep dom.length L padI padO * (i : ℚ))

/-- The `xScale` of `drawMatrix`: one band per year, range
`[0, years.length * cellWidth]`, padding `0.05`. -/
def xScalePos (years : List ℤ) (y : ℤ) : Option ℚ :=
  bandPos years ((years.length : ℚ) * cellWidth) bandPadding bandPadding y

/-- `xScale.bandwidth()`. -/
def xScaleBandwidth (years : List ℤ) : ℚ :=
  bandWidth years.length ((years.length : ℚ) * cellWidth) bandPadding bandPadding

/-- The `yScale` of `drawMatrix`: one band per month `0…11`, range
`[0, 12 * cellHeight]`, padding `0.05`. -/
def yScalePos (m : ℕ) : Option ℚ :=
  bandPos (List.range 12) (12 * cellHeight) bandPadding bandPadding m

/-- `yScale.bandwidth()`. -/
def yScaleBandwidth : ℚ :=
  bandWidth 12 (12 * cellHeight) bandPadding bandPadding

/-- The sparkline inset padding `pad = 4` of `drawSparklines`. -/
def sparkPad : ℚ := 4

/-- `tempMin` of `drawSparklines`:
`d3.min(cells, c => d3.min(c.days, d => d.min))`. -/
def sparklineTempMin (cells : List Cell) : Option ℚ :=
  d3minO (cells.map (fun c => d3minO (c.days.map (·.min))))

/-- `tempMax` of `drawSparklines`:
`d3.max(cells, c => d3.max(c.days, d => d.max))`. -/
def sparklineTempMax (cells : List Cell) : Option ℚ :=
  d3maxO (cells.map (fun c => d3maxO (c.days.map (·.max))))

/-- The per-cell `sparkY` linear scale of `drawSparklines` applied to a
temperature: domain `[tempMin, tempMax]` (global across all cells),
range `[cy + cellH - pad, cy + pad]` where `cy = yScale(cell.month)` and
`cellH = yScale.bandwidth()`.  An undefined `cy` makes both range
endpoints `NaN`, hence every output `NaN`. -/
def sparkYCell (cells : List Cell) (c : Cell) (T : Option ℚ) : Option ℚ :=
  (yScalePos ((c.month : ℕ))).bind fun cy =>
    scaleLinearJS (sparklineTempMin cells) (sparklineTempMax cells)
      (cy + yScaleBandwidth - sparkPad) (cy + sparkPad) T

/-- The y-pixel of a temperature inside a cell's own coordinate frame:
`sparkY(T) - cy`, i.e. the offset of the drawn point from the cell's top
band position. -/
def localSparkY (cells : List Cell) (c : Cell) (T : Option ℚ) : Option ℚ :=
  (yScalePos ((c.month : ℕ))).bind fun cy =>
    (sparkYCell cells c T).map (fun v => v - cy)

/-- The per-cell `sparkX` linear scale of `drawSparklines` applied to a
1-based day index: domain `[1, cell.days.length]`, range
`[cx + pad, cx + cellW - pad]` where `cx = xScale(cell.year)` and
`cellW = xScale.bandwidth()`. -/
def sparkXCell (years : List ℤ) (c : Cell) (i : ℚ) : Option ℚ :=
  (xScalePos years c.year).bind fun cx =>
    scaleLinearJS (some 1) (some ((c.days.length : ℚ)))
      (cx + sparkPad) (cx + xScaleBandwidth years - sparkPad) (some i)

/-- The `years` array of the entry point:
`[...new Set(filtered.map(d => d.date.getFullYear()))].sort()` — the
distinct years in first-appearance order (`Set` iteration order), then
sorted ascending (JS default sort compares the decimal strings, which
agrees with numeric order on equal-length year numerals; only membership
and order-stability matter downstream). -/
def yearsDomain (data : List Daily) : List ℤ :=
  (dedupKeepFirst (data.map (·.year))).insertionSort (· ≤ ·)

/-- The process-wide `mode` flag of `main.js`: `"max"` or `"min"`. -/
inductive Mode where
  | max : Mode
  | min : Mode
deriving DecidableEq, Repr

/-- The click handler's flip: `mode = mode === "max" ? "min" : "max"`. -/
def flipMode : Mode → Mode
  | Mode.max => Mode.min
  | Mode.min => Mode.max

/-- The accessor chosen from the mode:
`mode === "max" ? d => d.avgMax : d => d.avgMin`. -/
def modeAccessor : Mode → Cell → Option ℚ
  | Mode.max => (·.avgMax)
  | Mode.min => (·.avgMin)

/-- The fill attribute of one cell rectangle:
`colorScale(accessor(d))`. -/
def cellFill (m : Mode) (c : Cell) : Option ℚ :=
  buildColorScale (modeAccessor m c)

/-- The `#mode-label` text written by the click handler. -/
def modeLabel : Mode → String
  | Mode.max => "Showing: Max Temp"
  | Mode.min => "Showing: Min Temp"

/-- The observable display state the toggle touches: the mode flag, the
fill of every cell rectangle (in cell order) and the mode label text. -/
structure Display where
  mode : Mode
  fills : List (Option ℚ)
  label : String
deriving DecidableEq, Repr

/-- One click on the chart surface: flip `mode`, rebuild the color scale,
re-fill every `rect.cell` with `colorScale(accessor(d))` (the transition's
end state), and rewrite the mode label. -/
def clickStep (cells : List Cell) (d : Display) : Display :=
  let m := flipMode d.mode
  { mode := m
    fills := cells.map (cellFill m)
    label := modeLabel m }

/-- A display state whose fills and label agree with its mode — the
states the renderer and the click handler actually produce. -/
def consistentDisplay (cells : List Cell) (d : Display) : Prop :=
  d.fills = cells.map (cellFill d.mode) ∧ d.label = modeLabel d.mode

/-- The rows of `data` whose date falls in (year `y`, month `m`) — the
group a Cell summarizes. -/
def monthRows (data : List Daily) (y : ℤ) (m : Fin 12) : List Daily :=
  data.filter fun d => decide (d.year = y ∧ d.month = m)

/-- Number of distinct years in `data` strictly greater than `y`. -/
def distinctYearsAbove (data : List Daily) (y : ℤ) : ℕ :=
  (((data.map (·.year)).dedup).filter fun z => decide (y < z)).length

/-- The spec-side reading of claim C2: retain exactly the rows whose year
is among the `n` greatest distinct year values present in `data` (a row
qualifies when fewer than `n` distinct years lie strictly above its
year). -/
def topNYearFilter (data : List Daily) (n : ℤ) : List Daily :=
  data.filter fun d => decide ((distinctYearsAbove data d.year : ℤ) < n)

/-- Concrete data: a row in the year 2000. -/
def gapRowA : Daily := { year := 2000, month := 0, max := some 30, min := some 20 }

/-- Concrete data: a row in the year 2017. -/
def gapRowB : Daily := { year := 2017, month := 0, max := some 30, min := some 20 }

/-- Concrete data with a 17-year gap between its two distinct years. -/
def gapData : List Daily := [gapRowA, gapRowB]

/-- Concrete raw row whose `max_temperature` text is malformed. -/
def malformedRaw : RawRow :=
  { dateYear := 2017, dateMonth := 0, max_temperature := "abc", min_temperature := "20" }

/-- Concrete raw row with well-formed numeric text. -/
def okRaw : RawRow :=
  { dateYear := 2017, dateMonth := 0, max_temperature := "30", min_temperature := "20" }

/-- Concrete raw dataset mixing a malformed and a well-formed row in the
same (year, month). -/
def c4Raws : List RawRow := [malformedRaw, okRaw]

/-- The single Cell produced from `c4Raws`. -/
def c4Cell : Cell :=
  { year := 2017, month := 0
    avgMax := d3mean [parseTemp "abc", parseTemp "30"]
    avgMin := d3mean [parseTemp "20", parseTemp "20"]
    days := [parseRow malformedRaw, parseRow okRaw] }

/-- Concrete parsed row: January 2016, max 30, min 20. -/
def wRow1 : Daily := { year := 2016, month := 0, max := some 30, min := some 20 }

/-- Concrete parsed row: January 2016, max 10, min 0. -/
def wRow2 : Daily := { year := 2016, month := 0, max := some 10, min := some 0 }

/-- Concrete parsed row: June 2017, max 28, min 18. -/
def wRow3 : Daily := { year := 2017, month := 5, max := some 28, min := some 18 }

/-- Concrete dataset spanning two years and two months. -/
def wData : List Daily := [wRow1, wRow2, wRow3]

/-- The January 2016 Cell of `wData`. -/
def wCellA : Cell :=
  { year := 2016, month := 0
    avgMax := d3mean [some 30, some 10]
    avgMin := d3mean [some 20, some 0]
    days := [wRow1, wRow2] }

/-- The June 2017 Cell of `wData` (a single-day month). -/
def wCellB : Cell :=
  { year := 2017, month := 5
    avgMax := d3mean [some 28]
    avgMin := d3mean [some 18]
    days := [wRow3] }

/-- A display state consistent with mode `max` over the cell `wCellA`. -/
def wDisplay : Display :=
  { mode := Mode.max
    fills := [wCellA].map (cellFill Mode.max)
    label := modeLabel Mode.max }

theorem mem_dedupKeepFirst [DecidableEq α] {a : α} {l : List α} :
    a ∈ dedupKeepFirst l ↔ a ∈ l := by
  simp [dedupKeepFirst]

theorem nodup_dedupKeepFirst [DecidableEq α] (l : List α) :
    (dedupKeepFirst l).Nodup := by
  simpa [dedupKeepFirst, List.nodup_reverse] using List.nodup_dedup l.reverse

theorem d3maxI_acc (xs : List ℤ) :
    ∀ m : ℤ,
      xs.foldl (fun acc v => match acc with | none => some v | some m => some (max m v)) (some m)
        = some (xs.foldl max m) := by
  induction xs with
  | nil => intro m; rfl
  | cons x xs ih =>
      intro m
      rw [List.foldl_cons, List.foldl_cons]
      exact ih (max m x)

theorem d3maxI_cons (x : ℤ) (xs : List ℤ) :
    d3maxI (x :: xs) = some (xs.foldl max x) := by
  unfold d3maxI
  rw [List.foldl_cons]
  exact d3maxI_acc xs x

theorem foldl_max_mem (xs : List ℤ) (m : ℤ) :
    xs.foldl max m = m ∨ xs.foldl max m ∈ xs := by
  induction xs generalizing m with
  | nil => exact Or.inl rfl
  | cons x xs ih =>
      rw [List.foldl_cons]
      rcases ih (max m x) with h | h
      · rcases max_choice m x with h2 | h2
        · exact Or.inl (by rw [h, h2])
        · exact Or.inr (by rw [h, h2]; exact List.mem_cons_self x xs)
      · exact Or.inr (List.mem_cons_of_mem x h)

theorem le_foldl_max (xs : List ℤ) (m : ℤ) : m ≤ xs.foldl max m := by
  induction xs generalizing m with
  | nil => exact le_refl m
  | cons x xs ih =>
      rw [List.foldl_cons]
      exact le_trans (le_max_left m x) (ih (max m x))

theorem mem_le_foldl_max (xs : List ℤ) (m : ℤ) : ∀ y ∈ xs, y ≤ xs.foldl max m := by
  induction xs generalizing m with
  | nil => intro y hy; cases hy
  | cons x xs ih =>
      intro y hy
      rw [List.foldl_cons]
      rcases List.mem_cons.1 hy with rfl | hy
      · exact le_trans (le_max_right m y) (le_foldl_max xs (max m y))
      · exact ih (max m x) y hy

theorem d3maxI_spec {xs : List ℤ} {M : ℤ} (h : d3maxI xs = some M) :
    M ∈ xs ∧ ∀ y ∈ xs, y ≤ M := by
  cases xs with
  | nil => simp [d3maxI] at h
  | cons x t =>
      rw [d3maxI_cons] at h
      injection h with h
      subst h
      refine ⟨?_, ?_⟩
      · rcases foldl_max_mem t x with h | h
        · rw [h]; exact List.mem_cons_self x t
        · exact List.mem_cons_of_mem x h
      · intro y hy
        rcases List.mem_cons.1 hy with rfl | hy
        · exact le_foldl_max t y
        · exact mem_le_foldl_max t x y hy

theorem d3maxI_ne_none {xs : List ℤ} (h : xs ≠ []) : ∃ M, d3maxI xs = some M := by
  cases xs with
  | nil => exact absurd rfl h
  | cons x t => exact ⟨t.foldl max x, d3maxI_cons x t⟩

theorem flatMap_filter_key_perm [DecidableEq β] (k : α → β) :
    ∀ (K : List β) (l : List α), K.Nodup → (∀ v, v ∈ K ↔ v ∈ l.map k) →
      (K.flatMap fun v => l.filter fun x => decide (k x = v)).Perm l := by
  intro K
  induction K with
  | nil =>
      intro l _ hcond
      have hl : l = [] := by
        cases l with
        | nil => rfl
        | cons a t => exact absurd ((hcond (k a)).2 (by simp)) (by simp)
      simp [hl]
  | cons v K ih =>
      intro l hK hcond
      rw [List.flatMap_cons]
      have hvK : v ∉ K := (List.nodup_cons.1 hK).1
      have hKnd : K.Nodup := (List.nodup_cons.1 hK).2
      have hfilters : ∀ u ∈ K,
          (l.filter fun x => decide (k x = u))
            = ((l.filter fun x => !decide (k x = v)).filter fun x => decide (k x = u)) := by
        intro u hu
        have hne : u ≠ v := fun h => hvK (h ▸ hu)
        rw [List.filter_filter]
        refine List.filter_congr ?_
        intro x _
        by_cases h : k x = u
        · have hxv : ¬(k x = v) := by rw [h]; exact hne
          simp [h, hxv, hne]
        · simp [h]
      have hflat :
          (K.flatMap fun u => l.filter fun x => decide (k x = u))
            = K.flatMap fun u =>
                (l.filter fun x => !decide (k x = v)).filter fun x => decide (k x = u) :=
        List.flatMap_congr hfilters
      have hcond' : ∀ u, u ∈ K ↔ u ∈ (l.filter fun x => !decide (k x = v)).map k := by
        intro u
        constructor
        · intro hu
          have hne : u ≠ v := fun h => hvK (h ▸ hu)
          have hml : u ∈ l.map k := (hcond u).1 (List.mem_cons_of_mem v hu)
          rcases List.mem_map.1 hml with ⟨x, hx, hkx⟩
          exact List.mem_map.2 ⟨x, List.mem_filter.2 ⟨hx, by simp [hkx, hne]⟩, hkx⟩
        · intro hu
          rcases List.mem_map.1 hu with ⟨x, hx, hkx⟩
          rcases List.mem_filter.1 hx with ⟨hxl, hxv⟩
          have hmemK : u ∈ v :: K := (hcond u).2 (List.mem_map.2 ⟨x, hxl, hkx⟩)
          rcases List.mem_cons.1 hmemK with rfl | h
          · exact absurd hkx (by simpa using hxv)
          · exact h
      have ihp := ih (l.filter fun x => !decide (k x = v)) hKnd hcond'
      rw [hflat]
      exact (List.Perm.append_left _ ihp).trans (List.filter_append_perm _ l)

theorem mem_aggregate_iff {data : List Daily} {c : Cell} :
    c ∈ aggregateByYearMonth data ↔
      ∃ y : ℤ, ∃ m : Fin 12,
        y ∈ dedupKeepFirst (data.map (·.year)) ∧
        m ∈ dedupKeepFirst ((data.filter fun d => decide (d.year = y)).map (·.month)) ∧
        c = { year := y, month := m
              avgMax := d3mean
                (((data.filter fun d => decide (d.year = y)).filter
                    fun d => decide (d.month = m)).map (·.max))
              avgMin := d3mean
                (((data.filter fun d => decide (d.year = y)).filter
                    fun d => decide (d.month = m)).map (·.min))
              days := (data.filter fun d => decide (d.year = y)).filter
                        fun d => decide (d.month = m) } := by
  simp only [aggregateByYearMonth, List.mem_flatMap, List.mem_map]
  constructor
  · rintro ⟨y, hy, m, hm, rfl⟩
    exact ⟨y, m, hy, hm, rfl⟩
  · rintro ⟨y, m, hy, hm, rfl⟩
    exact ⟨y, hy, m, hm, rfl⟩

theorem monthRows_eq_filter_filter (data : List Daily) (y : ℤ) (m : Fin 12) :
    ((data.filter fun d => decide (d.year = y)).filter fun d => decide (d.month = m))
      = monthRows data y m := by
  rw [List.filter_filter]
  unfold monthRows
  refine List.filter_congr ?_
  intro x _
  by_cases h1 : x.year = y <;> by_cases h2 : x.month = m <;> simp [h1, h2]

theorem mem_monthRows {data : List Daily} {y : ℤ} {m : Fin 12} {d : Daily} :
    d ∈ monthRows data y m ↔ d ∈ data ∧ d.year = y ∧ d.month = m := by
  unfold monthRows
  rw [List.mem_filter]
  simp

theorem aggregate_cell_spec {data : List Daily} {c : Cell}
    (hc : c ∈ aggregateByYearMonth data) :
    c.days = monthRows data c.year c.month ∧
    c.avgMax = d3mean (c.days.map (·.max)) ∧
    c.avgMin = d3mean (c.days.map (·.min)) ∧
    c.days ≠ [] := by
  rcases mem_aggregate_iff.1 hc with ⟨y, m, hy, hm, rfl⟩
  refine ⟨monthRows_eq_filter_filter data y m, rfl, rfl, ?_⟩
  rcases List.mem_map.1 (mem_dedupKeepFirst.1 hm) with ⟨d, hd, hdm⟩
  have hmem : d ∈ (data.filter fun r => decide (r.year = y)).filter
      fun r => decide (r.month = m) :=
    List.mem_filter.2 ⟨hd, by simp [hdm]⟩
  exact List.ne_nil_of_mem hmem

theorem aggregate_pairs_nodup (data : List Daily) :
    ((aggregateByYearMonth data).map fun c => (c.year, c.month)).Nodup := by
  unfold aggregateByYearMonth
  rw [List.map_flatMap]
  rw [List.nodup_flatMap]
  constructor
  · intro y _
    rw [List.map_map]
    refine List.Nodup.map ?_ (nodup_dedupKeepFirst _)
    intro m1 m2 h
    simpa using h
  · have hnd : List.Pairwise (fun a b => a ≠ b) (dedupKeepFirst (data.map (·.year))) :=
      nodup_dedupKeepFirst _
    refine hnd.imp ?_
    intro y1 y2 hne
    simp only [Function.onFun]
    intro a ha1 ha2
    simp only [List.map_map, List.mem_map, Function.comp] at ha1 ha2
    rcases ha1 with ⟨m1, _, hm1⟩
    rcases ha2 with ⟨m2, _, hm2⟩
    apply hne
    have hpp : (y1, m1) = (y2, m2) := by rw [hm1, hm2]
    exact congrArg Prod.fst hpp

theorem aggregate_pair_mem_iff {data : List Daily} {y : ℤ} {m : Fin 12} :
    ((y, m) ∈ (aggregateByYearMonth data).map fun c => (c.year, c.month)) ↔
      ∃ d ∈ data, d.year = y ∧ d.month = m := by
  constructor
  · intro h
    rcases List.mem_map.1 h with ⟨c, hc, hpair⟩
    rcases mem_aggregate_iff.1 hc with ⟨y', m', _, hm', rfl⟩
    have hy' : y' = y := (Prod.mk.injEq _ _ _ _ ▸ hpair).1
    have hm'' : m' = m := (Prod.mk.injEq _ _ _ _ ▸ hpair).2
    subst hy'; subst hm''
    rcases List.mem_map.1 (mem_dedupKeepFirst.1 hm') with ⟨d, hd, hdm⟩
    rcases List.mem_filter.1 hd with ⟨hdl, hdy⟩
    exact ⟨d, hdl, by simpa using hdy, hdm⟩
  · rintro ⟨d, hd, hdy, hdm⟩
    have hcmem := mem_aggregate_iff.2
      ⟨y, m,
        mem_dedupKeepFirst.2 (List.mem_map.2 ⟨d, hd, hdy⟩),
        mem_dedupKeepFirst.2
          (List.mem_map.2 ⟨d, List.mem_filter.2 ⟨hd, by simp [hdy]⟩, hdm⟩),
        rfl⟩
    exact List.mem_map.2 ⟨_, hcmem, rfl⟩

theorem length_filterMap_id_of_all_some {xs : List (Option ℚ)}
    (h : ∀ x ∈ xs, x ≠ none) :
    (xs.filterMap id).length = xs.length := by
  induction xs with
  | nil => rfl
  | cons x t ih =>
      cases x with
      | none => exact absurd rfl (h none (List.mem_cons_self _ _))
      | some q =>
          simpa using ih (fun x hx => h x (List.mem_cons_of_mem _ hx))

theorem d3mean_all_some {xs : List (Option ℚ)} (h : ∀ x ∈ xs, x ≠ none) (hne : xs ≠ []) :
    d3mean xs = some ((xs.filterMap id).sum / (xs.length : ℚ)) := by
  unfold d3mean
  rw [length_filterMap_id_of_all_some h]
  rw [if_neg]
  intro hlen
  exact hne (List.length_eq_zero.1 hlen)

theorem d3minStep_none_right (acc : Option ℚ) : d3minStep acc none = acc := rfl

theorem d3minStep_none_left (v : Option ℚ) : d3minStep none v = v := by
  cases v <;> rfl

theorem d3minStep_assoc (a b c : Option ℚ) :
    d3minStep (d3minStep a b) c = d3minStep a (d3minStep b c) := by
  cases a <;> cases b <;> cases c <;> simp [d3minStep, min_assoc]

theorem foldl_d3minStep_acc (xs : List (Option ℚ)) :
    ∀ acc : Option ℚ, xs.foldl d3minStep acc = d3minStep acc (xs.foldl d3minStep none) := by
  induction xs with
  | nil => intro acc; rfl
  | cons x t ih =>
      intro acc
      rw [List.foldl_cons, List.foldl_cons, ih (d3minStep acc x), ih (d3minStep none x),
        d3minStep_none_left]
      exact d3minStep_assoc acc x (t.foldl d3minStep none)

theorem d3minO_cons (x : Option ℚ) (t : List (Option ℚ)) :
    d3minO (x :: t) = d3minStep x (d3minO t) := by
  unfold d3minO
  rw [List.foldl_cons, foldl_d3minStep_acc, d3minStep_none_left]

theorem d3minO_append (xs ys : List (Option ℚ)) :
    d3minO (xs ++ ys) = d3minStep (d3minO xs) (d3minO ys) := by
  unfold d3minO
  rw [List.foldl_append, foldl_d3minStep_acc]

theorem d3minO_flatten (css : List (List (Option ℚ))) :
    d3minO (css.map d3minO) = d3minO css.flatten := by
  induction css with
  | nil => rfl
  | cons c rest ih =>
      rw [List.map_cons, d3minO_cons, ih, List.flatten_cons, d3minO_append]

instance : RightCommutative d3minStep :=
  ⟨fun b a₁ a₂ => by
    cases b <;> cases a₁ <;> cases a₂ <;>
      simp [d3minStep, min_assoc, min_comm, min_left_comm]⟩

theorem d3minO_perm {l1 l2 : List (Option ℚ)} (h : l1.Perm l2) : d3minO l1 = d3minO l2 :=
  h.foldl_eq none

theorem d3maxStep_none_right (acc : Option ℚ) : d3maxStep acc none = acc := rfl

theorem d3maxStep_none_left (v : Option ℚ) : d3maxStep none v = v := by
  cases v <;> rfl

theorem d3maxStep_assoc (a b c : Option ℚ) :
    d3maxStep (d3maxStep a b) c = d3maxStep a (d3maxStep b c) := by
  cases a <;> cases b <;> cases c <;> simp [d3maxStep, max_assoc]

theorem foldl_d3maxStep_acc (xs : List (Option ℚ)) :
    ∀ acc : Option ℚ, xs.foldl d3maxStep acc = d3maxStep acc (xs.foldl d3maxStep none) := by
  induction xs with
  | nil => intro acc; rfl
  | cons x t ih =>
      intro acc
      rw [List.foldl_cons, List.foldl_cons, ih (d3maxStep acc x), ih (d3maxStep none x),
        d3maxStep_none_left]
      exact d3maxStep_assoc acc x (t.foldl d3maxStep none)

theorem d3maxO_cons (x : Option ℚ) (t : List (Option ℚ)) :
    d3maxO (x :: t) = d3maxStep x (d3maxO t) := by
  unfold d3maxO
  rw [List.foldl_cons, foldl_d3maxStep_acc, d3maxStep_none_left]

theorem d3maxO_append (xs ys : List (Option ℚ)) :
    d3maxO (xs ++ ys) = d3maxStep (d3maxO xs) (d3maxO ys) := by
  unfold d3maxO
  rw [List.foldl_append, foldl_d3maxStep_acc]

theorem d3maxO_flatten (css : List (List (Option ℚ))) :
    d3maxO (css.map d3maxO) = d3maxO css.flatten := by
  induction css with
  | nil => rfl
  | cons c rest ih =>
      rw [List.map_cons, d3maxO_cons, ih, List.flatten_cons, d3maxO_append]

instance : RightCommutative d3maxStep :=
  ⟨fun b a₁ a₂ => by
    cases b <;> cases a₁ <;> cases a₂ <;>
      simp [d3maxStep, max_assoc, max_comm, max_left_comm]⟩

theorem d3maxO_perm {l1 l2 : List (Option ℚ)} (h : l1.Perm l2) : d3maxO l1 = d3maxO l2 :=
  h.foldl_eq none

theorem flatMap_perm_of_forall {α β : Type} {f g : α → List β} :
    ∀ l : List α, (∀ a ∈ l, (f a).Perm (g a)) → (l.flatMap f).Perm (l.flatMap g) := by
  intro l
  induction l with
  | nil => intro _; exact List.Perm.refl _
  | cons a t ih =>
      intro h
      rw [List.flatMap_cons, List.flatMap_cons]
      exact (h a (List.mem_cons_self a t)).append
        (ih fun x hx => h x (List.mem_cons_of_mem a hx))

theorem aggregate_days_perm (data : List Daily) :
    ((aggregateByYearMonth data).flatMap (·.days)).Perm data := by
  unfold aggregateByYearMonth
  rw [List.flatMap_assoc]
  have step1 : ∀ y ∈ dedupKeepFirst (data.map (·.year)),
      ((fun y =>
          ((dedupKeepFirst ((data.filter fun d => decide (d.year = y)).map (·.month))).map
            fun m =>
              ({ year := y, month := m
                 avgMax := d3mean
                   (((data.filter fun d => decide (d.year = y)).filter
                       fun d => decide (d.month = m)).map (·.max))
                 avgMin := d3mean
                   (((data.filter fun d => decide (d.year = y)).filter
                       fun d => decide (d.month = m)).map (·.min))
                 days := (data.filter fun d => decide (d.year = y)).filter
                           fun d => decide (d.month = m) } : Cell)).flatMap (·.days)) y).Perm
        (data.filter fun d => decide (d.year = y)) := by
    intro y _
    dsimp only
    rw [List.flatMap_map]
    have hinner := flatMap_filter_key_perm (fun d => d.month)
      (dedupKeepFirst ((data.filter fun d => decide (d.year = y)).map (·.month)))
      (data.filter fun d => decide (d.year = y))
      (nodup_dedupKeepFirst _)
      (fun v => mem_dedupKeepFirst)
    exact hinner
  refine ((flatMap_perm_of_forall _ step1).trans ?_)
  exact flatMap_filter_key_perm (fun d => d.year) _ data
    (nodup_dedupKeepFirst _) (fun v => mem_dedupKeepFirst)

theorem yScalePos_fin (m : Fin 12) :
    yScalePos (m : ℕ) = some (bandStart 12 (12 * cellHeight) bandPadding bandPadding
      + bandStep 12 (12 * cellHeight) bandPadding bandPadding * ((m : ℕ) : ℚ)) := by
  fin_cases m <;> rfl

theorem findIdx?_isSome_of_mem [DecidableEq α] {l : List α} {v : α} (h : v ∈ l) :
    ∀ i : ℕ, (List.findIdx? (fun x => decide (x = v)) l i).isSome := by
  induction l with
  | nil => cases h
  | cons x t ih =>
      intro i
      rw [List.findIdx?_cons]
      by_cases hx : x = v
      · simp [hx]
      · rcases List.mem_cons.1 h with rfl | hvt
        · exact absurd rfl hx
        · simp only [hx, decide_False, Bool.false_eq_true, if_false]
          exact ih hvt (i + 1)

/-- C3: on non-empty input, `filterLastYears(data, n)` is exactly the
subsequence of rows with `year > M - n`, where `M` is the greatest year
occurring among the rows (derived from the data, not from the clock). -/
theorem filterLastYears_eq_window (data : List Daily) (n : ℤ) (h : data ≠ []) :
    ∃ M : ℤ, M ∈ data.map (·.year) ∧ (∀ y ∈ data.map (·.year), y ≤ M) ∧
      filterLastYears data n = data.filter fun d => decide (d.year > M - n) := by
  have hmapne : data.map (·.year) ≠ [] := by
    intro hm
    exact h (List.map_eq_nil_iff.1 hm)
  obtain ⟨M, hM⟩ := d3maxI_ne_none hmapne
  obtain ⟨hmem, hub⟩ := d3maxI_spec hM
  refine ⟨M, hmem, hub, ?_⟩
  unfold filterLastYears
  rw [hM]

/-- Witness for C3 on concrete data. -/
theorem filterLastYears_eq_window_witness :
    wData ≠ [] ∧
    ∃ M : ℤ, M ∈ wData.map (·.year) ∧ (∀ y ∈ wData.map (·.year), y ≤ M) ∧
      filterLastYears wData 10 = wData.filter fun d => decide (d.year > M - 10) :=
  ⟨by decide, filterLastYears_eq_window wData 10 (by decide)⟩

/-- C2 fails as stated: with years {2000, 2017} and N = 10, both years are
among the 10 greatest distinct years present, yet the filter keeps only
the rows with year > 2017 - 10. -/
theorem topNYearFilter_counterexample :
    filterLastYears gapData 10 ≠ topNYearFilter gapData 10 := by
  decide

/-- C2 (amended): `filterLastYears(data, n)` retains exactly the rows
whose year lies in the calendar window `(M - n, M]` anchored at the
greatest year `M` present in the data; this coincides with the
top-n-distinct-years rule only when those years have no gaps. -/
theorem filterLastYears_mem_iff (data : List Daily) (n : ℤ) (h : data ≠ []) :
    ∃ M : ℤ, M ∈ data.map (·.year) ∧ (∀ y ∈ data.map (·.year), y ≤ M) ∧
      ∀ r : Daily, r ∈ filterLastYears data n ↔ r ∈ data ∧ M - n < r.year := by
  obtain ⟨M, hmem, hub, heq⟩ := filterLastYears_eq_window data n h
  refine ⟨M, hmem, hub, ?_⟩
  intro r
  rw [heq, List.mem_filter]
  simp

/-- Witness for the amended C2 on concrete data. -/
theorem filterLastYears_mem_iff_witness :
    gapData ≠ [] ∧
    ∃ M : ℤ, M ∈ gapData.map (·.year) ∧ (∀ y ∈ gapData.map (·.year), y ≤ M) ∧
      ∀ r : Daily, r ∈ filterLastYears gapData 10 ↔ r ∈ gapData ∧ M - 10 < r.year :=
  ⟨by decide, filterLastYears_mem_iff gapData 10 (by decide)⟩

/-- C10: on non-empty input with `n ≥ 1` the filter keeps a non-empty
subsequence (in input order — it is a sublist of the unchanged input),
and every row bearing the greatest year is retained. -/
theorem filterLastYears_nonempty_sublist (data : List Daily) (n : ℤ)
    (hne : data ≠ []) (hn : 1 ≤ n) :
    filterLastYears data n ≠ [] ∧
    (filterLastYears data n).Sublist data ∧
    ∀ r ∈ data, (∀ s ∈ data, s.year ≤ r.year) → r ∈ filterLastYears data n := by
  obtain ⟨M, hmem, hub, heq⟩ := filterLastYears_eq_window data n hne
  rcases List.mem_map.1 hmem with ⟨rM, hrM, hrMy⟩
  refine ⟨?_, ?_, ?_⟩
  · have : rM ∈ filterLastYears data n := by
      rw [heq]
      refine List.mem_filter.2 ⟨hrM, ?_⟩
      simp only [decide_eq_true_eq]
      rw [hrMy]
      omega
    exact List.ne_nil_of_mem this
  · rw [heq]
    exact List.filter_sublist data
  · intro r hr hmax
    have hle : r.year ≤ M := hub r.year (List.mem_map.2 ⟨r, hr, rfl⟩)
    have hge : M ≤ r.year := by
      rw [← hrMy]
      exact hmax rM hrM
    rw [heq]
    refine List.mem_filter.2 ⟨hr, ?_⟩
    simp only [decide_eq_true_eq]
    omega

/-- Witness for C10 on concrete data. -/
theorem filterLastYears_nonempty_sublist_witness :
    wData ≠ [] ∧ (1 : ℤ) ≤ 10 ∧
    (filterLastYears wData 10 ≠ [] ∧
      (filterLastYears wData 10).Sublist wData ∧
      ∀ r ∈ wData, (∀ s ∈ wData, s.year ≤ r.year) → r ∈ filterLastYears wData 10) :=
  ⟨by decide, by decide, filterLastYears_nonempty_sublist wData 10 (by decide) (by decide)⟩


theorem map_filterMap_id_max (l : List Daily) :
    (l.map (·.max)).filterMap id = l.filterMap (·.max) := by
  rw [List.filterMap_map]
  rfl

theorem map_filterMap_id_min (l : List Daily) :
    (l.map (·.min)).filterMap id = l.filterMap (·.min) := by
  rw [List.filterMap_map]
  rfl

theorem d3mean_eq_none_iff (xs : List (Option ℚ)) :
    d3mean xs = none ↔ xs.filterMap id = [] := by
  unfold d3mean
  split_ifs with h
  · simp [List.length_eq_zero.1 h]
  · constructor
    · intro hsome
      cases hsome
    · intro hnil
      rw [hnil] at h
      exact absurd rfl h

theorem d3mean_eq_mean_of_ne_nil {xs : List (Option ℚ)} (h : xs.filterMap id ≠ []) :
    d3mean xs = some ((xs.filterMap id).sum / ((xs.filterMap id).length : ℚ)) := by
  unfold d3mean
  rw [if_neg fun h0 => h (List.length_eq_zero.1 h0)]

theorem aggregate_wData_eval : aggregateByYearMonth wData = [wCellA, wCellB] := rfl

theorem aggregate_c4_eval : aggregateByYearMonth (c4Raws.map parseRow) = [c4Cell] := rfl

theorem count_eq_one_of_nodup_mem {α : Type} [BEq α] [LawfulBEq α] {l : List α} {a : α}
    (hn : l.Nodup) (h : a ∈ l) : l.count a = 1 := by
  induction l with
  | nil => cases h
  | cons x t ih =>
      rcases List.nodup_cons.1 hn with ⟨hxt, hnd⟩
      rw [List.count_cons]
      rcases List.mem_cons.1 h with rfl | hat
      · rw [List.count_eq_zero_of_not_mem hxt]
        simp
      · rw [ih hnd hat]
        have hxa : ¬(x == a) = true := by
          intro hb
          rw [eq_of_beq hb] at hxt
          exact hxt hat
        simp [hxa]

/-- C1: for any input to the Aggregator, each (year, month) pair with at
least one row yields exactly one Cell and a pair with no rows yields
none; and when every row's temperatures are well-formed numbers, the
Cell's `avgMax`/`avgMin` are the arithmetic means of `max`/`min` over
exactly the rows of that pair. -/
theorem aggregate_mean_spec (data : List Daily)
    (hwf : ∀ r ∈ data, r.max ≠ none ∧ r.min ≠ none) (y : ℤ) (m : Fin 12) :
    (((aggregateByYearMonth data).map fun c => (c.year, c.month)).count (y, m)
        = if monthRows data y m = [] then 0 else 1) ∧
    ∀ c ∈ aggregateByYearMonth data, c.year = y → c.month = m →
      c.avgMax = some (((monthRows data y m).filterMap (·.max)).sum
                        / ((monthRows data y m).length : ℚ)) ∧
      c.avgMin = some (((monthRows data y m).filterMap (·.min)).sum
                        / ((monthRows data y m).length : ℚ)) := by
  constructor
  · by_cases hpop : monthRows data y m = []
    · rw [if_pos hpop]
      apply List.count_eq_zero_of_not_mem
      intro hmem
      rcases aggregate_pair_mem_iff.1 hmem with ⟨d, hd, hdy, hdm⟩
      have hdmem : d ∈ monthRows data y m := mem_monthRows.2 ⟨hd, hdy, hdm⟩
      rw [hpop] at hdmem
      cases hdmem
    · rw [if_neg hpop]
      rcases List.exists_mem_of_ne_nil _ hpop with ⟨d, hd⟩
      rcases mem_monthRows.1 hd with ⟨hdl, hdy, hdm⟩
      exact count_eq_one_of_nodup_mem (aggregate_pairs_nodup data)
        (aggregate_pair_mem_iff.2 ⟨d, hdl, hdy, hdm⟩)
  · intro c hc hcy hcm
    obtain ⟨hdays, hmax, hmin, hne⟩ := aggregate_cell_spec hc
    rw [hcy, hcm] at hdays
    have hrowsne : monthRows data y m ≠ [] := hdays ▸ hne
    have hmapne : (monthRows data y m).map (·.max) ≠ [] := by
      intro h0
      exact hrowsne (List.map_eq_nil_iff.1 h0)
    have hmapne' : (monthRows data y m).map (·.min) ≠ [] := by
      intro h0
      exact hrowsne (List.map_eq_nil_iff.1 h0)
    have hallmax : ∀ x ∈ (monthRows data y m).map (·.max), x ≠ none := by
      intro x hx
      rcases List.mem_map.1 hx with ⟨d, hd, rfl⟩
      exact (hwf d (mem_monthRows.1 hd).1).1
    have hallmin : ∀ x ∈ (monthRows data y m).map (·.min), x ≠ none := by
      intro x hx
      rcases List.mem_map.1 hx with ⟨d, hd, rfl⟩
      exact (hwf d (mem_monthRows.1 hd).1).2
    constructor
    · rw [hmax, hdays, d3mean_all_some hallmax hmapne, map_filterMap_id_max,
        List.length_map]
    · rw [hmin, hdays, d3mean_all_some hallmin hmapne', map_filterMap_id_min,
        List.length_map]

/-- Witness for C1 at concrete data and the populated pair (2016, Jan). -/
theorem aggregate_mean_spec_witness :
    (∀ r ∈ wData, r.max ≠ none ∧ r.min ≠ none) ∧
    ((((aggregateByYearMonth wData).map fun c => (c.year, c.month)).count (2016, 0)
        = if monthRows wData 2016 0 = [] then 0 else 1) ∧
      ∀ c ∈ aggregateByYearMonth wData, c.year = 2016 → c.month = 0 →
        c.avgMax = some (((monthRows wData 2016 0).filterMap (·.max)).sum
                          / ((monthRows wData 2016 0).length : ℚ)) ∧
        c.avgMin = some (((monthRows wData 2016 0).filterMap (·.min)).sum
                          / ((monthRows wData 2016 0).length : ℚ))) :=
  ⟨by decide, aggregate_mean_spec wData (by decide) 2016 0⟩

/-- C8: the Cells' (year, month) pairs are pairwise distinct, every
Cell's day list is non-empty, and every field is fixed at aggregation
time by these equations (the embedding is purely functional, so no later
phase can mutate a Cell). -/
theorem aggregate_invariants (data : List Daily) :
    ((aggregateByYearMonth data).map fun c => (c.year, c.month)).Nodup ∧
    ∀ c ∈ aggregateByYearMonth data,
      c.days ≠ [] ∧
      c.days = monthRows data c.year c.month ∧
      c.avgMax = d3mean (c.days.map (·.max)) ∧
      c.avgMin = d3mean (c.days.map (·.min)) := by
  refine ⟨aggregate_pairs_nodup data, ?_⟩
  intro c hc
  obtain ⟨hdays, hmax, hmin, hne⟩ := aggregate_cell_spec hc
  exact ⟨hne, hdays, hmax, hmin⟩

/-- Witness for C8 at concrete data, instantiated at one produced Cell. -/
theorem aggregate_invariants_witness :
    (((aggregateByYearMonth wData).map fun c => (c.year, c.month)).Nodup ∧
      (wCellA.days ≠ [] ∧
        wCellA.days = monthRows wData wCellA.year wCellA.month ∧
        wCellA.avgMax = d3mean (wCellA.days.map (·.max)) ∧
        wCellA.avgMin = d3mean (wCellA.days.map (·.min)))) :=
  ⟨(aggregate_invariants wData).1,
    (aggregate_invariants wData).2 wCellA
      (by rw [aggregate_wData_eval]; exact List.mem_cons_self _ _)⟩


/-- C4 (amended): malformed numeric text parses to `NaN`, but `d3.mean`
*ignores* non-finite values: a malformed row is silently dropped from its
Cell's averages (no diagnostic), the average is computed over the
well-formed rows only, and it is non-numeric exactly when every row of
the group is malformed. -/
theorem aggregate_nan_dropped (raws : List RawRow) (c : Cell)
    (hc : c ∈ aggregateByYearMonth (raws.map parseRow)) :
    (c.avgMax = none ↔ ∀ d ∈ c.days, d.max = none) ∧
    (c.days.filterMap (·.max) ≠ [] →
      c.avgMax = some ((c.days.filterMap (·.max)).sum
                        / ((c.days.filterMap (·.max)).length : ℚ))) ∧
    (c.avgMin = none ↔ ∀ d ∈ c.days, d.min = none) ∧
    (c.days.filterMap (·.min) ≠ [] →
      c.avgMin = some ((c.days.filterMap (·.min)).sum
                        / ((c.days.filterMap (·.min)).length : ℚ))) := by
  obtain ⟨-, hmax, hmin, -⟩ := aggregate_cell_spec hc
  refine ⟨?_, ?_, ?_, ?_⟩
  · rw [hmax, d3mean_eq_none_iff, map_filterMap_id_max, List.filterMap_eq_nil_iff]
  · intro hneq
    rw [hmax, d3mean_eq_mean_of_ne_nil (by rw [map_filterMap_id_max]; exact hneq),
      map_filterMap_id_max]
  · rw [hmin, d3mean_eq_none_iff, map_filterMap_id_min, List.filterMap_eq_nil_iff]
  · intro hneq
    rw [hmin, d3mean_eq_mean_of_ne_nil (by rw [map_filterMap_id_min]; exact hneq),
      map_filterMap_id_min]

/-- C4 fails as stated: the parser does produce `NaN` for the malformed
`"abc"` field, yet the Cell containing that row has a *numeric* `avgMax`
(30, the mean over the one well-formed row), not `NaN`. -/
theorem aggregate_nan_counterexample :
    (parseRow malformedRaw).max = none ∧
    (aggregateByYearMonth (c4Raws.map parseRow)).map (·.avgMax) ≠ [none] ∧
    (aggregateByYearMonth (c4Raws.map parseRow)).map (·.avgMax) = [some 30] := by
  have h3 : (aggregateByYearMonth (c4Raws.map parseRow)).map (·.avgMax) = [some 30] := by
    rw [aggregate_c4_eval]
    show [d3mean [parseTemp "abc", parseTemp "30"]] = [some 30]
    rw [show parseTemp "abc" = none from rfl, show parseTemp "30" = some 30 from rfl]
    rw [d3mean_eq_mean_of_ne_nil (by decide)]
    rw [show List.filterMap id [none, some (30 : ℚ)] = [30] from rfl]
    norm_num [List.sum_cons, List.sum_nil]
  refine ⟨rfl, by rw [h3]; decide, h3⟩

/-- Witness for the amended C4 at the concrete mixed Cell. -/
theorem aggregate_nan_dropped_witness :
    ((c4Cell.avgMax = none ↔ ∀ d ∈ c4Cell.days, d.max = none) ∧
      (c4Cell.days.filterMap (·.max) ≠ [] →
        c4Cell.avgMax = some ((c4Cell.days.filterMap (·.max)).sum
                          / ((c4Cell.days.filterMap (·.max)).length : ℚ))) ∧
      (c4Cell.avgMin = none ↔ ∀ d ∈ c4Cell.days, d.min = none) ∧
      (c4Cell.days.filterMap (·.min) ≠ [] →
        c4Cell.avgMin = some ((c4Cell.days.filterMap (·.min)).sum
                          / ((c4Cell.days.filterMap (·.min)).length : ℚ)))) :=
  aggregate_nan_dropped c4Raws c4Cell
    (by rw [aggregate_c4_eval]; exact List.mem_cons_self _ _)

theorem sequentialT_eq (x : ℚ) : sequentialT x = (40 - x) / 40 := by
  unfold sequentialT TEMP_MIN TEMP_MAX
  ring

theorem interpolateRdYlBuPos_of_bounds {t : ℚ} (h0 : 0 ≤ t) (h1 : t ≤ 1) :
    interpolateRdYlBuPos t = t := by
  unfold interpolateRdYlBuPos
  rw [min_eq_right h1, max_eq_right h0]

theorem interpolateRdYlBuPos_of_ge_one {t : ℚ} (h : 1 ≤ t) :
    interpolateRdYlBuPos t = 1 := by
  unfold interpolateRdYlBuPos
  rw [min_eq_left h, max_eq_right zero_le_one]

theorem interpolateRdYlBuPos_of_le_zero {t : ℚ} (h : t ≤ 0) :
    interpolateRdYlBuPos t = 0 := by
  unfold interpolateRdYlBuPos
  rw [min_eq_right (le_trans h zero_le_one), max_eq_left h]

/-- C5: on `[0, 40]` the scale is strictly monotone toward the red end
(the ramp position strictly decreases, position 0 being the red
endpoint and 1 the blue endpoint); 0 maps exactly to the blue endpoint
and 40 exactly to the red endpoint; inputs outside `[0, 40]` are clamped
to the color of the nearer bound. -/
theorem buildColorScale_spec :
    (∀ a b : ℚ, 0 ≤ a → a < b → b ≤ 40 →
      ∃ pa pb, buildColorScale (some a) = some pa ∧
        buildColorScale (some b) = some pb ∧ pb < pa) ∧
    buildColorScale (some TEMP_MIN) = some 1 ∧
    buildColorScale (some TEMP_MAX) = some 0 ∧
    (∀ x : ℚ, x < TEMP_MIN → buildColorScale (some x) = buildColorScale (some TEMP_MIN)) ∧
    (∀ x : ℚ, TEMP_MAX < x → buildColorScale (some x) = buildColorScale (some TEMP_MAX)) := by
  have hval : ∀ x : ℚ, buildColorScale (some x)
      = some (interpolateRdYlBuPos (sequentialT x)) := fun x => rfl
  have hb0 : ∀ x : ℚ, x ≤ 40 → 0 ≤ sequentialT x := by
    intro x hx
    rw [sequentialT_eq]
    exact div_nonneg (by linarith) (by norm_num)
  have hb1 : ∀ x : ℚ, 0 ≤ x → sequentialT x ≤ 1 := by
    intro x hx
    rw [sequentialT_eq, div_le_one (by norm_num)]
    linarith
  have hge1 : ∀ x : ℚ, x ≤ 0 → 1 ≤ sequentialT x := by
    intro x hx
    rw [sequentialT_eq, le_div_iff₀ (by norm_num)]
    linarith
  have hle0 : ∀ x : ℚ, 40 ≤ x → sequentialT x ≤ 0 := by
    intro x hx
    rw [sequentialT_eq, div_nonpos_iff]
    right
    exact ⟨by linarith, by norm_num⟩
  refine ⟨?_, ?_, ?_, ?_, ?_⟩
  · intro a b h0 hab hb
    refine ⟨_, _, rfl, rfl, ?_⟩
    show interpolateRdYlBuPos (sequentialT b) < interpolateRdYlBuPos (sequentialT a)
    rw [interpolateRdYlBuPos_of_bounds (hb0 b hb) (hb1 b (by linarith)),
      interpolateRdYlBuPos_of_bounds (hb0 a (by linarith)) (hb1 a h0),
      sequentialT_eq, sequentialT_eq]
    exact div_lt_div_of_pos_right (by linarith) (by norm_num)
  · rw [hval, interpolateRdYlBuPos_of_ge_one (hge1 TEMP_MIN (by norm_num [TEMP_MIN]))]
  · rw [hval, interpolateRdYlBuPos_of_le_zero (hle0 TEMP_MAX (by norm_num [TEMP_MAX]))]
  · intro x hx
    have hx0 : x ≤ 0 := by
      unfold TEMP_MIN at hx
      linarith
    rw [hval, hval,
      interpolateRdYlBuPos_of_ge_one (hge1 x hx0),
      interpolateRdYlBuPos_of_ge_one (hge1 TEMP_MIN (by norm_num [TEMP_MIN]))]
  · intro x hx
    have hx40 : 40 ≤ x := by
      unfold TEMP_MAX at hx
      linarith
    rw [hval, hval,
      interpolateRdYlBuPos_of_le_zero (hle0 x hx40),
      interpolateRdYlBuPos_of_le_zero (hle0 TEMP_MAX (by norm_num [TEMP_MAX]))]

/-- Witness for C5: concrete instances of each clause. -/
theorem buildColorScale_spec_witness :
    ((0 : ℚ) ≤ 10 ∧ (10 : ℚ) < 20 ∧ (20 : ℚ) ≤ 40 ∧
      ∃ pa pb, buildColorScale (some 10) = some pa ∧
        buildColorScale (some 20) = some pb ∧ pb < pa) ∧
    ((-5 : ℚ) < TEMP_MIN ∧
      buildColorScale (some (-5)) = buildColorScale (some TEMP_MIN)) ∧
    (TEMP_MAX < (45 : ℚ) ∧
      buildColorScale (some 45) = buildColorScale (some TEMP_MAX)) :=
  ⟨⟨by norm_num, by norm_num, by norm_num,
      buildColorScale_spec.1 10 20 (by norm_num) (by norm_num) (by norm_num)⟩,
    ⟨by norm_num [TEMP_MIN], buildColorScale_spec.2.2.2.1 (-5) (by norm_num [TEMP_MIN])⟩,
    ⟨by norm_num [TEMP_MAX], buildColorScale_spec.2.2.2.2 45 (by norm_num [TEMP_MAX])⟩⟩

/-- C6: two click transitions restore every cell's fill and the mode
label — on any display state whose fills and label agree with its mode
(the only states the renderer and click handler produce). -/
theorem clickStep_involutive (cells : List Cell) (d : Display)
    (h : consistentDisplay cells d) :
    clickStep cells (clickStep cells d) = d := by
  obtain ⟨hf, hl⟩ := h
  cases d with
  | mk m fills label =>
      cases m <;>
        simp_all [clickStep, flipMode, modeLabel, consistentDisplay]

/-- Witness for C6 at a concrete consistent display state. -/
theorem clickStep_involutive_witness :
    consistentDisplay [wCellA] wDisplay ∧
    clickStep [wCellA] (clickStep [wCellA] wDisplay) = wDisplay :=
  ⟨⟨rfl, rfl⟩, clickStep_involutive [wCellA] wDisplay ⟨rfl, rfl⟩⟩

/-- C9: a (year, month) group with exactly one day still yields a
well-defined Cell whose `avgMax`/`avgMin` equal that day's `max`/`min`,
and the day-to-x sparkline scale with its degenerate `[1, 1]` domain
still returns a defined pixel position (d3's `normalize` becomes the
constant `0.5`, the midpoint of the range). -/
theorem single_day_cell_spec (fdata : List Daily) (c : Cell)
    (hc : c ∈ aggregateByYearMonth fdata) (hone : c.days.length = 1) :
    (∃ d, c.days = [d] ∧ c.avgMax = d.max ∧ c.avgMin = d.min) ∧
    ∃ px : ℚ, sparkXCell (yearsDomain fdata) c 1 = some px := by
  obtain ⟨-, hmax, hmin, -⟩ := aggregate_cell_spec hc
  rcases List.length_eq_one.1 hone with ⟨d, hd⟩
  constructor
  · refine ⟨d, hd, ?_, ?_⟩
    · rw [hmax, hd]
      cases hdm : d.max with
      | none => simp [d3mean, hdm]
      | some q => simp [d3mean, hdm]
    · rw [hmin, hd]
      cases hdm : d.min with
      | none => simp [d3mean, hdm]
      | some q => simp [d3mean, hdm]
  · have hyear : c.year ∈ yearsDomain fdata := by
      rcases mem_aggregate_iff.1 hc with ⟨y, m, hy, -, rfl⟩
      unfold yearsDomain
      rw [(List.perm_insertionSort _ _).mem_iff]
      exact hy
    have hidx := findIdx?_isSome_of_mem hyear 0
    rcases Option.isSome_iff_exists.1 hidx with ⟨i, hi⟩
    have hcx : xScalePos (yearsDomain fdata) c.year
        = some (bandStart (yearsDomain fdata).length
            ((yearsDomain fdata).length * cellWidth) bandPadding bandPadding
          + bandStep (yearsDomain fdata).length
              ((yearsDomain fdata).length * cellWidth) bandPadding bandPadding * (i : ℚ)) := by
      unfold xScalePos bandPos
      rw [hi]
      rfl
    unfold sparkXCell
    rw [hcx]
    simp only [Option.some_bind]
    unfold scaleLinearJS
    simp only [Option.some_bind, hone]
    rw [if_pos (by norm_num)]
    exact ⟨_, rfl⟩

/-- Witness for C9 at the concrete single-day June 2017 cell. -/
theorem single_day_cell_spec_witness :
    wCellB ∈ aggregateByYearMonth wData ∧ wCellB.days.length = 1 ∧
    ((∃ d, wCellB.days = [d] ∧ wCellB.avgMax = d.max ∧ wCellB.avgMin = d.min) ∧
      ∃ px : ℚ, sparkXCell (yearsDomain wData) wCellB 1 = some px) :=
  ⟨by rw [aggregate_wData_eval]; exact List.mem_cons_of_mem _ (List.mem_cons_self _ _),
    rfl,
    single_day_cell_spec wData wCellB
      (by rw [aggregate_wData_eval]; exact List.mem_cons_of_mem _ (List.mem_cons_self _ _))
      rfl⟩

theorem scaleLinear_offset (d0 d1 : Option ℚ) (H P cy1 cy2 : ℚ) (T : Option ℚ) :
    (scaleLinearJS d0 d1 (cy1 + H - P) (cy1 + P) T).map (fun v => v - cy1)
      = (scaleLinearJS d0 d1 (cy2 + H - P) (cy2 + P) T).map (fun v => v - cy2) := by
  cases T with
  | none => rfl
  | some t =>
      cases d0 with
      | none => rfl
      | some a =>
          cases d1 with
          | none => rfl
          | some b =>
              by_cases hdeg : b - a = 0
              · simp only [scaleLinearJS, Option.some_bind, if_pos hdeg, Option.map_some']
                exact congrArg some (by ring)
              · simp only [scaleLinearJS, Option.some_bind, if_neg hdeg, Option.map_some']
                exact congrArg some (by ring)

/-- C7: in one render the sparkline y-scale domain is the global
`d3.min` of all days' `min` and global `d3.max` of all days' `max` over
the whole aggregated dataset (not per-cell), and consequently any two
cells map the same temperature to the same y-offset inside their own
cell frames. -/
theorem sparkline_shared_scale (fdata : List Daily) (c1 c2 : Cell)
    (_hc1 : c1 ∈ aggregateByYearMonth fdata) (_hc2 : c2 ∈ aggregateByYearMonth fdata)
    (T : Option ℚ) :
    sparklineTempMin (aggregateByYearMonth fdata) = d3minO (fdata.map (·.min)) ∧
    sparklineTempMax (aggregateByYearMonth fdata) = d3maxO (fdata.map (·.max)) ∧
    localSparkY (aggregateByYearMonth fdata) c1 T
      = localSparkY (aggregateByYearMonth fdata) c2 T := by
  refine ⟨?_, ?_, ?_⟩
  · unfold sparklineTempMin
    have hmm : (aggregateByYearMonth fdata).map (fun c => d3minO (c.days.map (·.min)))
        = ((aggregateByYearMonth fdata).map (fun c => c.days.map (·.min))).map d3minO := by
      rw [List.map_map]
      rfl
    rw [hmm, d3minO_flatten]
    have hkey : ((aggregateByYearMonth fdata).map fun c => c.days.map (·.min)).flatten
        = ((aggregateByYearMonth fdata).flatMap (·.days)).map (·.min) := by
      rw [← List.flatMap_def, List.map_flatMap]
    rw [hkey]
    exact d3minO_perm ((aggregate_days_perm fdata).map (·.min))
  · unfold sparklineTempMax
    have hmm : (aggregateByYearMonth fdata).map (fun c => d3maxO (c.days.map (·.max)))
        = ((aggregateByYearMonth fdata).map (fun c => c.days.map (·.max))).map d3maxO := by
      rw [List.map_map]
      rfl
    rw [hmm, d3maxO_flatten]
    have hkey : ((aggregateByYearMonth fdata).map fun c => c.days.map (·.max)).flatten
        = ((aggregateByYearMonth fdata).flatMap (·.days)).map (·.max) := by
      rw [← List.flatMap_def, List.map_flatMap]
    rw [hkey]
    exact d3maxO_perm ((aggregate_days_perm fdata).map (·.max))
  · unfold localSparkY sparkYCell
    rw [yScalePos_fin c1.month, yScalePos_fin c2.month]
    simp only [Option.some_bind]
    exact scaleLinear_offset _ _ yScaleBandwidth sparkPad _ _ T

/-- Witness for C7 at the two concrete cells from different years. -/
theorem sparkline_shared_scale_witness :
    wCellA ∈ aggregateByYearMonth wData ∧ wCellB ∈ aggregateByYearMonth wData ∧
    (sparklineTempMin (aggregateByYearMonth wData) = d3minO (wData.map (·.min)) ∧
      sparklineTempMax (aggregateByYearMonth wData) = d3maxO (wData.map (·.max)) ∧
      localSparkY (aggregateByYearMonth wData) wCellA (some 25)
        = localSparkY (aggregateByYearMonth wData) wCellB (some 25)) :=
  ⟨by rw [aggregate_wData_eval]; exact List.mem_cons_self _ _,
    by rw [aggregate_wData_eval]; exact List.mem_cons_of_mem _ (List.mem_cons_self _ _),
    sparkline_shared_scale wData wCellA wCellB
      (by rw [aggregate_wData_eval]; exact List.mem_cons_self _ _)
      (by rw [aggregate_wData_eval]; exact List.mem_cons_of_mem _ (List.mem_cons_self _ _))
      (some 25)⟩
